import Mathlib

/-!
Shallow embedding of the libp2p WebRTC transport
(`p2p/transport/webrtc/transport.go`, `p2p/transport/webrtc/internal/fingerprint.go`
and the stream read/close code), together with proofs about the embedded
definitions.  Bytes are modelled as `Nat` (values `< 256` where it matters),
byte strings as `List Nat`, Go strings as `List Char`.  External collaborator
libraries (go-multihash, go-multibase, binary uvarint) are modelled faithfully
to their documented wire formats, restricted to the branches this repository
exercises.
-/

/-- Unsigned LEB128 (Go `binary.PutUvarint`): low 7 bits first, high bit of a
byte marks continuation. -/
def uvarintEncode (n : Nat) : List Nat :=
  if h : n < 128 then [n]
  else (n % 128 + 128) :: uvarintEncode (n / 128)
termination_by n
decreasing_by
  exact Nat.div_lt_self (by omega) (by omega)

/-- Inverse of `uvarintEncode` (Go `binary.Uvarint`), returning the decoded
value and the unconsumed tail. -/
def uvarintDecode : List Nat → Option (Nat × List Nat)
  | [] => none
  | b :: rest =>
    if b < 128 then some (b, rest)
    else
      match uvarintDecode rest with
      | some (m, rest2) => some (m * 128 + (b - 128), rest2)
      | none => none

theorem uvarintDecode_uvarintEncode (n : Nat) (tl : List Nat) :
    uvarintDecode (uvarintEncode n ++ tl) = some (n, tl) := by
  induction n using Nat.strong_induction_on with
  | _ n ih =>
    by_cases h : n < 128
    · rw [uvarintEncode]
      simp [h, uvarintDecode]
    · rw [uvarintEncode]
      simp only [h, dite_false, List.cons_append, uvarintDecode]
      have h2 : ¬ (n % 128 + 128 < 128) := by omega
      rw [if_neg h2, ih (n / 128) (Nat.div_lt_self (by omega) (by omega))]
      show some (n / 128 * 128 + (n % 128 + 128 - 128), tl) = some (n, tl)
      have h3 : n / 128 * 128 + (n % 128 + 128 - 128) = n := by omega
      rw [h3]

theorem uvarintEncode_lt_256 (n : Nat) : ∀ x ∈ uvarintEncode n, x < 256 := by
  induction n using Nat.strong_induction_on with
  | _ n ih =>
    by_cases h : n < 128
    · rw [uvarintEncode]
      simp [h]
      omega
    · rw [uvarintEncode]
      simp only [h, dite_false, List.mem_cons]
      rintro x (rfl | hx)
      · omega
      · exact ih (n / 128) (Nat.div_lt_self (by omega) (by omega)) x hx

/-- Character of the base64url alphabet at index `n < 64`. -/
def b64Char (n : Nat) : Char :=
  if n < 26 then Char.ofNat (65 + n)
  else if n < 52 then Char.ofNat (97 + (n - 26))
  else if n < 62 then Char.ofNat (48 + (n - 52))
  else if n = 62 then Char.ofNat 45
  else Char.ofNat 95

/-- Index of a character in the base64url alphabet. -/
def b64Val (c : Char) : Option Nat :=
  let n := c.toNat
  if 65 ≤ n ∧ n ≤ 90 then some (n - 65)
  else if 97 ≤ n ∧ n ≤ 122 then some (n - 97 + 26)
  else if 48 ≤ n ∧ n ≤ 57 then some (n - 48 + 52)
  else if n = 45 then some 62
  else if n = 95 then some 63
  else none

theorem b64Val_b64Char : ∀ n < 64, b64Val (b64Char n) = some n := by decide

/-- Unpadded base64url encoding of a byte string (the alphabet and the absence
of padding match Go `base64.RawURLEncoding`, which go-multibase uses for the
`u` base). -/
def b64urlEncode : List Nat → List Char
  | [] => []
  | [a] => [b64Char (a / 4), b64Char (a % 4 * 16)]
  | [a, b] => [b64Char (a / 4), b64Char (a % 4 * 16 + b / 16), b64Char (b % 16 * 4)]
  | a :: b :: c :: rest =>
      b64Char (a / 4) :: b64Char (a % 4 * 16 + b / 16) ::
        b64Char (b % 16 * 4 + c / 64) :: b64Char (c % 64) :: b64urlEncode rest

/-- Unpadded base64url decoding. -/
def b64urlDecode : List Char → Option (List Nat)
  | [] => some []
  | [_] => none
  | [c1, c2] =>
    match b64Val c1, b64Val c2 with
    | some x1, some x2 => some [x1 * 4 + x2 / 16]
    | _, _ => none
  | [c1, c2, c3] =>
    match b64Val c1, b64Val c2, b64Val c3 with
    | some x1, some x2, some x3 => some [x1 * 4 + x2 / 16, x2 % 16 * 16 + x3 / 4]
    | _, _, _ => none
  | c1 :: c2 :: c3 :: c4 :: rest =>
    match b64Val c1, b64Val c2, b64Val c3, b64Val c4, b64urlDecode rest with
    | some x1, some x2, some x3, some x4, some tail =>
        some ((x1 * 4 + x2 / 16) :: (x2 % 16 * 16 + x3 / 4) :: (x3 % 4 * 64 + x4) :: tail)
    | _, _, _, _, _ => none

theorem b64urlDecode_b64urlEncode (bs : List Nat) (hb : ∀ x ∈ bs, x < 256) :
    b64urlDecode (b64urlEncode bs) = some bs := by
  induction bs using b64urlEncode.induct with
  | case1 => rfl
  | case2 a =>
    have ha : a < 256 := hb a (by simp)
    rw [b64urlEncode, b64urlDecode, b64Val_b64Char (a / 4) (by omega),
      b64Val_b64Char (a % 4 * 16) (by omega)]
    show some [a / 4 * 4 + a % 4 * 16 / 16] = some [a]
    have e1 : a / 4 * 4 + a % 4 * 16 / 16 = a := by omega
    rw [e1]
  | case3 a b =>
    have ha : a < 256 := hb a (by simp)
    have hbb : b < 256 := hb b (by simp)
    rw [b64urlEncode, b64urlDecode, b64Val_b64Char (a / 4) (by omega),
      b64Val_b64Char (a % 4 * 16 + b / 16) (by omega),
      b64Val_b64Char (b % 16 * 4) (by omega)]
    show some [a / 4 * 4 + (a % 4 * 16 + b / 16) / 16,
      (a % 4 * 16 + b / 16) % 16 * 16 + b % 16 * 4 / 4] = some [a, b]
    have e1 : a / 4 * 4 + (a % 4 * 16 + b / 16) / 16 = a := by omega
    have e2 : (a % 4 * 16 + b / 16) % 16 * 16 + b % 16 * 4 / 4 = b := by omega
    rw [e1, e2]
  | case4 a b c rest ih =>
    have ha : a < 256 := hb a (by simp)
    have hbb : b < 256 := hb b (by simp)
    have hc : c < 256 := hb c (by simp)
    have hrest : ∀ x ∈ rest, x < 256 := fun x hx => hb x (by simp [hx])
    rw [b64urlEncode, b64urlDecode, b64Val_b64Char (a / 4) (by omega),
      b64Val_b64Char (a % 4 * 16 + b / 16) (by omega),
      b64Val_b64Char (b % 16 * 4 + c / 64) (by omega),
      b64Val_b64Char (c % 64) (by omega), ih hrest]
    show some ((a / 4 * 4 + (a % 4 * 16 + b / 16) / 16) ::
        ((a % 4 * 16 + b / 16) % 16 * 16 + (b % 16 * 4 + c / 64) / 4) ::
        ((b % 16 * 4 + c / 64) % 4 * 64 + c % 64) :: rest) = some (a :: b :: c :: rest)
    have e1 : a / 4 * 4 + (a % 4 * 16 + b / 16) / 16 = a := by omega
    have e2 : (a % 4 * 16 + b / 16) % 16 * 16 + (b % 16 * 4 + c / 64) / 4 = b := by omega
    have e3 : (b % 16 * 4 + c / 64) % 4 * 64 + c % 64 = c := by omega
    rw [e1, e2, e3]

/-- Multihash code for sha2-256 (go-multihash `multihash.SHA2_256`). -/
def SHA2_256 : Nat := 0x12

/-- Decoded multihash (go-multihash `DecodedMultihash`): code, declared digest
length and the digest bytes. -/
structure DecodedMultihash where
  code : Nat
  length : Nat
  digest : List Nat
deriving DecidableEq, Repr

/-- Wire form built by go-multihash `Encode(digest, code)`: uvarint code,
uvarint digest length, digest bytes.  The Go function can only fail on an
unknown code; this repository always passes the valid constant `SHA2_256`. -/
def mhEncode (digest : List Nat) (code : Nat) : List Nat :=
  uvarintEncode code ++ uvarintEncode digest.length ++ digest

/-- Go-multihash `Decode`: reject buffers shorter than two bytes, read the
code and length uvarints, and require the rest to be exactly `length` digest
bytes. -/
def mhDecode (buf : List Nat) : Option DecodedMultihash :=
  if buf.length < 2 then none
  else
    match uvarintDecode buf with
    | none => none
    | some (code, r1) =>
      match uvarintDecode r1 with
      | none => none
      | some (len, digest) =>
        if digest.length = len then some ⟨code, len, digest⟩ else none

/-- Go-multibase `Encode(multibase.Base64url, bs)`: the `u` prefix character
followed by the unpadded base64url encoding. -/
def multibaseEncodeBase64url (bs : List Nat) : List Char :=
  'u' :: b64urlEncode bs

/-- Go-multibase `Decode`, modelled for the `u` (base64url) base, the only
base this repository emits; other prefixes are treated as undecodable here. -/
def multibaseDecode : List Char → Option (List Nat)
  | [] => none
  | c :: rest => if c = 'u' then b64urlDecode rest else none

/-- Value of one hexadecimal digit. -/
def hexVal (c : Char) : Option Nat :=
  if 48 ≤ c.toNat ∧ c.toNat ≤ 57 then some (c.toNat - 48)
  else if 97 ≤ c.toNat ∧ c.toNat ≤ 102 then some (c.toNat - 97 + 10)
  else if 65 ≤ c.toNat ∧ c.toNat ≤ 70 then some (c.toNat - 65 + 10)
  else none

/-- Modelled from the spec: `DecodeInterspersedHexFromASCIIString` from the
`internal/encoding` package is not in the source excerpt; per the spec it
parses the colon-interspersed `aa:bb:…` hex form of a DTLS fingerprint into
raw digest bytes. -/
def decodeInterspersedHex : List Char → Option (List Nat)
  | [] => some []
  | [c1, c2] =>
    match hexVal c1, hexVal c2 with
    | some h, some l => some [h * 16 + l]
    | _, _ => none
  | c1 :: c2 :: sep :: rest =>
    if sep = ':' then
      match hexVal c1, hexVal c2, decodeInterspersedHex rest with
      | some h, some l, some tail => some ((h * 16 + l) :: tail)
      | _, _, _ => none
    else none
  | [_] => none

theorem hexVal_lt_16 (c : Char) (n : Nat) (h : hexVal c = some n) : n < 16 := by
  unfold hexVal at h
  split at h
  · have := Option.some.inj h; omega
  · split at h
    · have := Option.some.inj h; omega
    · split at h
      · have := Option.some.inj h; omega
      · exact absurd h (by simp)

theorem decodeInterspersedHex_lt_256 : ∀ (v : List Char) (d : List Nat),
    decodeInterspersedHex v = some d → ∀ x ∈ d, x < 256
  | [], d, h => by
    rw [decodeInterspersedHex] at h
    cases h
    simp
  | [c1, c2], d, h => by
    rw [decodeInterspersedHex] at h
    cases h1 : hexVal c1 with
    | none => rw [h1] at h; exact absurd h (by simp)
    | some hh =>
      cases h2 : hexVal c2 with
      | none => rw [h1, h2] at h; exact absurd h (by simp)
      | some ll =>
        rw [h1, h2] at h
        cases h
        have := hexVal_lt_16 c1 hh h1
        have := hexVal_lt_16 c2 ll h2
        simp
        omega
  | c1 :: c2 :: sep :: rest, d, h => by
    rw [decodeInterspersedHex] at h
    by_cases hsep : sep = ':'
    case neg => rw [if_neg hsep] at h; exact absurd h (by simp)
    case pos =>
    rw [if_pos hsep] at h
    cases h1 : hexVal c1 with
    | none => rw [h1] at h; exact absurd h (by simp)
    | some hh =>
      cases h2 : hexVal c2 with
      | none => rw [h1, h2] at h; exact absurd h (by simp)
      | some ll =>
        cases h3 : decodeInterspersedHex rest with
        | none => rw [h1, h2, h3] at h; exact absurd h (by simp)
        | some tail =>
          rw [h1, h2, h3] at h
          cases h
          have ha := hexVal_lt_16 c1 hh h1
          have hb := hexVal_lt_16 c2 ll h2
          intro x hx
          rcases List.mem_cons.mp hx with rfl | hx
          · omega
          · exact decodeInterspersedHex_lt_256 rest tail h3 x hx
  | [c], d, h => by
    rw [decodeInterspersedHex] at h
    exact absurd h (by simp)

theorem uvarintEncode_length_pos (n : Nat) : 1 ≤ (uvarintEncode n).length := by
  rw [uvarintEncode]
  by_cases h : n < 128 <;> simp [h]

theorem mhDecode_mhEncode (digest : List Nat) (code : Nat) :
    mhDecode (mhEncode digest code) = some ⟨code, digest.length, digest⟩ := by
  rw [mhEncode, mhDecode]
  have h1 := uvarintEncode_length_pos code
  have h2 := uvarintEncode_length_pos digest.length
  have hlen : ¬ ((uvarintEncode code ++ uvarintEncode digest.length ++ digest).length < 2) := by
    simp only [List.length_append]
    omega
  rw [if_neg hlen, List.append_assoc]
  simp [uvarintDecode_uvarintEncode]

/-- DTLS fingerprint as pion reports it (`webrtc.DTLSFingerprint`): a hash
algorithm name such as `sha-256` and the digest in colon-interspersed hex. -/
structure DTLSFingerprint where
  Algorithm : List Char
  Value : List Char
deriving DecidableEq, Repr

/-- Embedding of `internal.EncodeDTLSFingerprint`: decode the interspersed-hex
value, wrap it with `multihash.Encode(digest, multihash.SHA2_256)` and
multibase-encode the result in base64url. -/
def EncodeDTLSFingerprint (fp : DTLSFingerprint) : Option (List Char) :=
  match decodeInterspersedHex fp.Value with
  | none => none
  | some digest => some (multibaseEncodeBase64url (mhEncode digest SHA2_256))

/-- Embedding of `internal.DecodeRemoteFingerprint`, applied to the value of
the `certhash` component of the remote multiaddress (the
`maddr.ValueForProtocol(ma.P_CERTHASH)` extraction returns that component's
string value): multibase-decode it, then multihash-decode the bytes. -/
def DecodeRemoteFingerprint (certhashValue : List Char) : Option DecodedMultihash :=
  match multibaseDecode certhashValue with
  | none => none
  | some data => mhDecode data

/-- Modelled from the spec: the multihash code whose hash algorithm matches a
DTLS fingerprint algorithm name — the `supported_sdp_hash` correspondence
between multihash codes and SDP hash names (the table itself is not in the
source excerpt; the codes are the standard multihash codes of those names). -/
def matchingMultihashCode (algorithm : List Char) : Option Nat :=
  if algorithm = "md5".toList then some 0xd5
  else if algorithm = "sha-1".toList then some 0x11
  else if algorithm = "sha-256".toList then some 0x12
  else if algorithm = "sha-384".toList then some 0x20
  else if algorithm = "sha-512".toList then some 0x13
  else none

/-- Hash algorithms the SDP/certhash layer can name (Go `crypto.Hash` values
returned by the supported-hash table). -/
inductive HashAlgo
  | md5
  | sha1
  | sha256
  | sha384
  | sha512
deriving DecidableEq, Repr

/-- Modelled from the spec: `internal.GetSupportedSDPHash` (not in the source
excerpt) maps the multihash codes the library recognizes to hash algorithms
(spec §4.1, `supported_sdp_hash(multihash_code) → hash_algo?`, e.g.
`sha-256`); the codes are the standard multihash codes of those names. -/
def getSupportedSDPHash (code : Nat) : Option HashAlgo :=
  if code = 0xd5 then some .md5
  else if code = 0x11 then some .sha1
  else if code = 0x12 then some .sha256
  else if code = 0x20 then some .sha384
  else if code = 0x13 then some .sha512
  else none

/-- Byte string of the prologue tag `libp2p-webrtc-noise:`. -/
def prologueTag : List Nat :=
  "libp2p-webrtc-noise:".toList.map Char.toNat

/-- Embedding of `(*WebRTCTransport).generateNoisePrologue`.  `remoteCertDer`
stands for `pc.SCTP().Transport().GetRemoteCertificate()`; `hashFn` stands for
the external crypto hash implementations applied by `internal.Fingerprint`
(the `x509.ParseCertificate` step, which fails only on malformed DER, is
elided); `localFpValue` is the value of the transport certificate's first
fingerprint (`t.getCertificateFingerprint`).  The local fingerprint hex is
decoded, both digests are wrapped with `multihash.Encode(_, SHA2_256)`, and
the result is the tag followed by remote‖local for inbound and local‖remote
otherwise. -/
def generateNoisePrologue (hashFn : HashAlgo → List Nat → List Nat)
    (localFpValue : List Char) (remoteCertDer : List Nat)
    (hash : HashAlgo) (inbound : Bool) : Option (List Nat) :=
  let remoteFpBytes := hashFn hash remoteCertDer
  match decodeInterspersedHex localFpValue with
  | none => none
  | some localFpBytes =>
    let localEncoded := mhEncode localFpBytes SHA2_256
    let remoteEncoded := mhEncode remoteFpBytes SHA2_256
    some (prologueTag ++
      (if inbound then remoteEncoded ++ localEncoded else localEncoded ++ remoteEncoded))

/-- Which Noise secure call `noiseHandshake` makes. -/
inductive SecureRole
  | secureInbound
  | secureOutbound
deriving DecidableEq, Repr

/-- Record of a `noiseHandshake` run: the secure call made and the prologue
passed to the session transport. -/
structure NoiseCall where
  role : SecureRole
  prologue : List Nat
deriving DecidableEq, Repr

/-- Embedding of `(*WebRTCTransport).noiseHandshake`: generate the prologue,
instantiate the session transport with it, then call `SecureOutbound` when
`inbound` is true and `SecureInbound` otherwise. -/
def noiseHandshake (hashFn : HashAlgo → List Nat → List Nat)
    (localFpValue : List Char) (remoteCertDer : List Nat)
    (hash : HashAlgo) (inbound : Bool) : Option NoiseCall :=
  match generateNoisePrologue hashFn localFpValue remoteCertDer hash inbound with
  | none => none
  | some pro =>
    some ⟨if inbound then SecureRole.secureOutbound else SecureRole.secureInbound, pro⟩

/-- The `inbound` argument `dial` passes to `noiseHandshake`: the literal
`false` in `t.noiseHandshake(ctx, pc, channel, p, remoteHashFunction, false)`. -/
def dialNoiseInbound : Bool := false

/-- Modelled from the spec: the listener's accept path (not in the source
excerpt) mirrors the dial sequence with roles swapped and runs
`noiseHandshake` with `inbound = true`. -/
def acceptNoiseInbound : Bool := true

/-- ICE timeout configuration (`IceTimeouts`); durations are `time.Duration`
nanosecond counts, hence `Int`. -/
structure IceTimeouts where
  Disconnect : Int
  Failed : Int
  Keepalive : Int
deriving DecidableEq, Repr

/-- The two validation errors `WithPeerConnectionIceTimeouts` can return. -/
inductive IceErr
  | disconnectGtFailed
  | keepaliveGeDisconnect
deriving DecidableEq, Repr

def DefaultDisconnectedTimeout : Int := 5000000000

def DefaultFailedTimeout : Int := 25000000000

def DefaultKeepaliveTimeout : Int := 2000000000

/-- Embedding of the closure returned by `WithPeerConnectionIceTimeouts`,
applied to a transport whose current timeouts are `cur`: each zero field of
the argument is first replaced by the corresponding current value, then the
two range checks run on the substituted values. -/
def withPeerConnectionIceTimeouts (cur timeouts : IceTimeouts) : Except IceErr IceTimeouts :=
  let t1 := if timeouts.Disconnect = 0 then { timeouts with Disconnect := cur.Disconnect } else timeouts
  let t2 := if t1.Failed = 0 then { t1 with Failed := cur.Failed } else t1
  let t3 := if t2.Keepalive = 0 then { t2 with Keepalive := cur.Keepalive } else t2
  if t3.Disconnect ≠ 0 then
    if t3.Failed ≠ 0 ∧ t3.Failed < t3.Disconnect then
      Except.error IceErr.disconnectGtFailed
    else if t3.Keepalive ≠ 0 ∧ t3.Disconnect ≤ t3.Keepalive then
      Except.error IceErr.keepaliveGeDisconnect
    else Except.ok t3
  else Except.ok t3

/-- The argument timeouts with each zero field replaced by the transport's
current value for that field. -/
def substitutedTimeouts (cur inp : IceTimeouts) : IceTimeouts :=
  ⟨if inp.Disconnect = 0 then cur.Disconnect else inp.Disconnect,
   if inp.Failed = 0 then cur.Failed else inp.Failed,
   if inp.Keepalive = 0 then cur.Keepalive else inp.Keepalive⟩

/-- Follows the words of the claim, for comparison with the source embedding:
accept iff `failed ≥ disconnect` and `disconnect > keepalive` hold among the
checks that are enabled, where a zero field means that check is disabled. -/
def claimIceAccepts (t : IceTimeouts) : Bool :=
  (t.Failed == 0 || t.Disconnect == 0 || decide (t.Disconnect ≤ t.Failed)) &&
  (t.Disconnect == 0 || t.Keepalive == 0 || decide (t.Keepalive < t.Disconnect))

/-- The source's acceptance condition, phrased as the claim's invariants but
evaluated on the substituted timeouts. -/
def iceInvariantsOkB (t : IceTimeouts) : Bool :=
  t.Disconnect == 0 ||
    ((t.Failed == 0 || decide (t.Disconnect ≤ t.Failed)) &&
     (t.Keepalive == 0 || decide (t.Keepalive < t.Disconnect)))

/-- The mutable transport fields the construction options touch. -/
structure TransportConfig where
  peerConnectionTimeouts : IceTimeouts
  maxInFlightConnections : Nat
deriving DecidableEq, Repr

/-- Modelled from the spec: `DefaultMaxInFlightConnections` is declared in the
listener file, which is not in the source excerpt; the spec only says the
default is implementation-defined, and no claim depends on the value used
here. -/
def DefaultMaxInFlightConnections : Nat := 128

/-- The transport configuration `New` starts from before applying options. -/
def defaultTransportConfig : TransportConfig :=
  ⟨⟨DefaultDisconnectedTimeout, DefaultFailedTimeout, DefaultKeepaliveTimeout⟩,
   DefaultMaxInFlightConnections⟩

/-- Embedding of the option value `WithPeerConnectionIceTimeouts(timeouts)`
as a function on the transport under construction. -/
def WithPeerConnectionIceTimeouts (timeouts : IceTimeouts) (t : TransportConfig) :
    Except IceErr TransportConfig :=
  match withPeerConnectionIceTimeouts t.peerConnectionTimeouts timeouts with
  | Except.error e => Except.error e
  | Except.ok ts => Except.ok { t with peerConnectionTimeouts := ts }

/-- Embedding of `WithListenerMaxInFlightConnections(m)`. -/
def WithListenerMaxInFlightConnections (m : Nat) (t : TransportConfig) :
    Except IceErr TransportConfig :=
  Except.ok { t with maxInFlightConnections := m }

/-- Outcomes of the fallible external steps inside `New`, in source order.
`pskPresent` stands for `psk != nil`. -/
structure NewEnv where
  pskPresent : Bool
  idFromKeyOk : Bool
  genKeyOk : Bool
  genCertOk : Bool
  noiseNewOk : Bool
deriving DecidableEq, Repr

/-- Errors `New` can return, in source order. -/
inductive NewErr
  | pskNotSupported
  | idFromKey
  | genKey
  | genCert
  | noiseNew
  | optFailed (e : IceErr)
deriving DecidableEq, Repr

/-- Fold of the variadic options over the transport under construction; the
first failing option aborts `New`. -/
def applyTransportOpts :
    List (TransportConfig → Except IceErr TransportConfig) → TransportConfig →
      Except NewErr TransportConfig
  | [], t => Except.ok t
  | opt :: rest, t =>
    match opt t with
    | Except.error e => Except.error (NewErr.optFailed e)
    | Except.ok t2 => applyTransportOpts rest t2

/-- Embedding of `New`: reject a non-nil pre-shared key first, then run the
fallible construction steps in source order, then apply the options to the
transport built with the default timeouts and in-flight cap. -/
def transportNew (e : NewEnv)
    (opts : List (TransportConfig → Except IceErr TransportConfig)) :
    Except NewErr TransportConfig :=
  if e.pskPresent then Except.error NewErr.pskNotSupported
  else if !e.idFromKeyOk then Except.error NewErr.idFromKey
  else if !e.genKeyOk then Except.error NewErr.genKey
  else if !e.genCertOk then Except.error NewErr.genCert
  else if !e.noiseNewOk then Except.error NewErr.noiseNew
  else applyTransportOpts opts defaultTransportConfig

/-- Outcomes of the fallible steps of `(*WebRTCTransport).dial`, in source
order, together with the multihash code carried by the remote certhash. -/
structure DialFlow where
  decodeFpOk : Bool
  certhashCode : Nat
  dialArgsOk : Bool
  resolveAddrOk : Bool
  newPeerConnectionOk : Bool
  createDataChannelOk : Bool
  createOfferOk : Bool
  setLocalDescriptionOk : Bool
  renderServerSdpOk : Bool
  setRemoteDescriptionOk : Bool
  awaitOpenOk : Bool
  detachOk : Bool
  selectedPairOk : Bool
  localAddrOk : Bool
  newConnectionOk : Bool
  noiseHandshakeOk : Bool
deriving DecidableEq, Repr

/-- Errors `dial` can return, one per exit path in source order.
`unsupportedHash` is the `unsupported hash function` error; `fmt.Errorf`
always yields a non-nil error value, even though this call site wraps a nil
error with `%w`. -/
inductive DialErr
  | decodeFingerprint
  | unsupportedHash
  | dialArgs
  | resolveAddr
  | newPeerConnection
  | createDataChannel
  | createOffer
  | setLocalDescription
  | renderServerSdp
  | setRemoteDescription
  | awaitOpen
  | detach
  | selectedPair
  | localAddr
  | newConnection
  | noise
deriving DecidableEq, Repr

/-- Observable outcome of one `dial` run: the returned error if any, whether
a peer connection object was ever created, whether the connection object was
constructed, and whether `dial` returned a non-nil connection together with a
non-nil error (which happens only on the Noise-handshake failure path, where
the deferred cleanup has already closed that connection). -/
instance : DecidableEq (Except DialErr Unit) := fun x y =>
  match x, y with
  | Except.ok (), Except.ok () => isTrue rfl
  | Except.error a, Except.error b =>
    if h : a = b then isTrue (by rw [h])
    else isFalse (by intro he; cases he; exact h rfl)
  | Except.ok _, Except.error _ => isFalse (by intro he; cases he)
  | Except.error _, Except.ok _ => isFalse (by intro he; cases he)

structure DialOut where
  result : Except DialErr Unit
  pcCreated : Bool
  connConstructed : Bool
  connReturnedWithErr : Bool
deriving DecidableEq, Repr

/-- Embedding of `(*WebRTCTransport).dial` at the level of its control flow:
each fallible step either fails with its error or continues to the next, and
`getSupportedSDPHash` guards the path right after fingerprint decoding and
before any peer connection exists. -/
def dialRun (f : DialFlow) : DialOut :=
  if !f.decodeFpOk then ⟨Except.error DialErr.decodeFingerprint, false, false, false⟩
  else
    match getSupportedSDPHash f.certhashCode with
    | none => ⟨Except.error DialErr.unsupportedHash, false, false, false⟩
    | some _ =>
      if !f.dialArgsOk then ⟨Except.error DialErr.dialArgs, false, false, false⟩
      else if !f.resolveAddrOk then ⟨Except.error DialErr.resolveAddr, false, false, false⟩
      else if !f.newPeerConnectionOk then
        ⟨Except.error DialErr.newPeerConnection, false, false, false⟩
      else if !f.createDataChannelOk then
        ⟨Except.error DialErr.createDataChannel, true, false, false⟩
      else if !f.createOfferOk then ⟨Except.error DialErr.createOffer, true, false, false⟩
      else if !f.setLocalDescriptionOk then
        ⟨Except.error DialErr.setLocalDescription, true, false, false⟩
      else if !f.renderServerSdpOk then
        ⟨Except.error DialErr.renderServerSdp, true, false, false⟩
      else if !f.setRemoteDescriptionOk then
        ⟨Except.error DialErr.setRemoteDescription, true, false, false⟩
      else if !f.awaitOpenOk then ⟨Except.error DialErr.awaitOpen, true, false, false⟩
      else if !f.detachOk then ⟨Except.error DialErr.detach, true, false, false⟩
      else if !f.selectedPairOk then ⟨Except.error DialErr.selectedPair, true, false, false⟩
      else if !f.localAddrOk then ⟨Except.error DialErr.localAddr, true, false, false⟩
      else if !f.newConnectionOk then ⟨Except.error DialErr.newConnection, true, false, false⟩
      else if !f.noiseHandshakeOk then ⟨Except.error DialErr.noise, true, true, true⟩
      else ⟨Except.ok (), true, true, false⟩

/-- Modelled from the spec: closing the connection releases its
resource-manager scope exactly once over the connection's lifetime (spec
§4.6; the connection implementation is not in the source excerpt). -/
def connCloseScopeReleases : Nat := 1

/-- One call to `(*WebRTCTransport).Dial`: whether `rcmgr.OpenConnection` and
`scope.SetPeer` succeed, and the outcomes inside `dial`. -/
structure DialCall where
  openConnectionOk : Bool
  setPeerOk : Bool
  flow : DialFlow
deriving DecidableEq, Repr

/-- Total number of `scope.Done()` invocations attributable to one `Dial`
call, over the eventual lifetime of a successfully returned connection; it is
`none` when `OpenConnection` itself failed, so no scope exists.  On an error
from `dial`, the deferred cleanup inside `dial` has closed the returned
connection when there was one — which releases the scope, per the
spec-modelled connection close — and `Dial`'s own error path invokes
`scope.Done()` once more; on success the returned connection releases the
scope over its lifetime. -/
def dialDoneInvocations (c : DialCall) : Option Nat :=
  if !c.openConnectionOk then none
  else if !c.setPeerOk then some 1
  else
    let out := dialRun c.flow
    match out.result with
    | Except.ok _ => some connCloseScopeReleases
    | Except.error _ =>
      some ((if out.connReturnedWithErr then connCloseScopeReleases else 0) + 1)

/-- A `DialFlow` in which every step succeeds and the certhash carries the
sha-256 multihash code. -/
def allOkDialFlow : DialFlow :=
  ⟨true, 0x12, true, true, true, true, true, true, true, true, true, true, true, true,
   true, true⟩

theorem dialRun_connReturnedWithErr (f : DialFlow) :
    (dialRun f).connReturnedWithErr = true ↔
      (dialRun f).result = Except.error DialErr.noise := by
  obtain ⟨d1, code, d2, d3, d4, d5, d6, d7, d8, d9, d10, d11, d12, d13, d14, d15⟩ := f
  cases d1
  · simp [dialRun]
  cases h : getSupportedSDPHash code
  · simp [dialRun, h]
  cases d2
  · simp [dialRun, h]
  cases d3
  · simp [dialRun, h]
  cases d4
  · simp [dialRun, h]
  cases d5
  · simp [dialRun, h]
  cases d6
  · simp [dialRun, h]
  cases d7
  · simp [dialRun, h]
  cases d8
  · simp [dialRun, h]
  cases d9
  · simp [dialRun, h]
  cases d10
  · simp [dialRun, h]
  cases d11
  · simp [dialRun, h]
  cases d12
  · simp [dialRun, h]
  cases d13
  · simp [dialRun, h]
  cases d14
  · simp [dialRun, h]
  cases d15
  · simp [dialRun, h]
  · simp [dialRun, h]

/-- Receive-side stream states (`receiveStateReceiving`, `receiveStateDataRead`,
`receiveStateReset`). -/
inductive ReceiveState
  | receiving
  | dataRead
  | reset
deriving DecidableEq, Repr

/-- Send-side stream states (spec §3: `send_state ∈ {sending, closed, reset}`). -/
inductive SendState
  | sending
  | closed
  | reset
deriving DecidableEq, Repr

/-- Message flags of the stream protocol (`pb.Message_Flag`). -/
inductive MsgFlag
  | FIN
  | STOP_SENDING
  | RESET
deriving DecidableEq, Repr

/-- One length-delimited stream message: an optional flag and payload bytes. -/
structure StreamMsg where
  flag : Option MsgFlag
  data : List Nat
deriving DecidableEq, Repr

/-- The stream fields guarded by the stream mutex that the read/close paths
touch: the two state machines, the sticky close error (an abstract error id)
and the buffered inbound message. -/
structure StreamState where
  receiveState : ReceiveState
  sendState : SendState
  closeErr : Option Nat
  nextMessage : Option StreamMsg
deriving DecidableEq, Repr

/-- What the underlying `reader.ReadMsg` yields in one call: a message, or an
error (`io.EOF` or any other error, by an abstract id). -/
inductive ChanEvent
  | msg (m : StreamMsg)
  | eofErr
  | otherErr (code : Nat)
deriving DecidableEq, Repr

/-- Errors a stream `Read` can surface: `io.EOF`, `network.ErrReset`, the
sticky close error, a bubbled-up channel error, or blocking forever because
the channel yields nothing (modelling the un-returning `ReadMsg` call). -/
inductive ReadErr
  | eofE
  | resetE
  | stickyE (code : Nat)
  | chanE (code : Nat)
  | blockedE
deriving DecidableEq, Repr

/-- Modelled from the spec: `processIncomingFlag` (the stream state machine
transition on a received flag) is not in the source excerpt; per spec §4.5,
`FIN` moves `receive_state` from `receiving` to `data_read`, `RESET` moves
`receive_state` from `receiving` to `reset`, and `STOP_SENDING` moves
`send_state` from `sending` to `closed`. -/
def processIncomingFlag (s : StreamState) : Option MsgFlag → StreamState
  | none => s
  | some MsgFlag.FIN =>
    if s.receiveState = ReceiveState.receiving
    then { s with receiveState := ReceiveState.dataRead } else s
  | some MsgFlag.RESET =>
    if s.receiveState = ReceiveState.receiving
    then { s with receiveState := ReceiveState.reset } else s
  | some MsgFlag.STOP_SENDING =>
    if s.sendState = SendState.sending
    then { s with sendState := SendState.closed } else s

/-- Embedding of the error branch of `stream.Read` after `reader.ReadMsg`
fails (the code under `if err := s.reader.ReadMsg(&msg); err != nil`): on
`io.EOF` with `receive_state == data_read` return `EOF`; on any other
`io.EOF` the close was abrupt, so move `receive_state` to `reset` and return
`Reset`; on other errors return `Reset`/`EOF` if the state already fixed the
outcome, else bubble the error up.  The state argument is the stream state at
the moment the mutex is re-acquired. -/
def handleReadMsgError (s : StreamState) : ChanEvent → StreamState × ReadErr
  | ChanEvent.eofErr =>
    if s.receiveState = ReceiveState.dataRead then (s, ReadErr.eofE)
    else ({ s with receiveState := ReceiveState.reset }, ReadErr.resetE)
  | ChanEvent.otherErr code =>
    if s.receiveState = ReceiveState.reset then (s, ReadErr.resetE)
    else if s.receiveState = ReceiveState.dataRead then (s, ReadErr.eofE)
    else (s, ReadErr.chanE code)
  | ChanEvent.msg _ => (s, ReadErr.blockedE)

/-- Result of one `stream.Read` call: the state on return, the channel events
not yet consumed, the byte count and the error (`none` means a nil error). -/
structure ReadOut where
  st : StreamState
  rest : List ChanEvent
  n : Nat
  err : Option ReadErr
deriving DecidableEq, Repr

/-- The load-and-process loop of `stream.Read` for the iterations whose
`nextMessage` is nil: take the next `ReadMsg` outcome from the channel; on an
error delegate to `handleReadMsgError`; on a message with a non-empty payload
copy into the caller's buffer of `blen` free bytes and keep the sliced
remainder buffered; on an empty payload process the flag and either return a
terminal outcome or loop.  An exhausted channel models a `ReadMsg` call that
never returns. -/
def readLoadLoop (s : StreamState) (blen : Nat) :
    List ChanEvent → ReadOut
  | [] => ⟨s, [], 0, some ReadErr.blockedE⟩
  | ChanEvent.eofErr :: rest =>
    let (s2, e) := handleReadMsgError s ChanEvent.eofErr
    ⟨s2, rest, 0, some e⟩
  | ChanEvent.otherErr code :: rest =>
    let (s2, e) := handleReadMsgError s (ChanEvent.otherErr code)
    ⟨s2, rest, 0, some e⟩
  | ChanEvent.msg m :: rest =>
    if 0 < m.data.length then
      let n := min blen m.data.length
      ⟨{ s with nextMessage := some ⟨m.flag, m.data.drop n⟩ }, rest, n, none⟩
    else
      let s2 := { processIncomingFlag s m.flag with nextMessage := none }
      match s2.closeErr with
      | some code => ⟨s2, rest, 0, some (ReadErr.stickyE code)⟩
      | none =>
        match s2.receiveState with
        | ReceiveState.dataRead => ⟨s2, rest, 0, some ReadErr.eofE⟩
        | ReceiveState.reset => ⟨s2, rest, 0, some ReadErr.resetE⟩
        | ReceiveState.receiving => readLoadLoop s2 blen rest

/-- Embedding of `stream.Read` (single sequential run, the reader token and
mutex interleavings elided): sticky close error first, then the terminal
receive states, then the zero-length buffer, then the buffered message if
any, then the load loop. -/
def streamRead (s : StreamState) (blen : Nat) (chan : List ChanEvent) : ReadOut :=
  match s.closeErr with
  | some code => ⟨s, chan, 0, some (ReadErr.stickyE code)⟩
  | none =>
    match s.receiveState with
    | ReceiveState.dataRead => ⟨s, chan, 0, some ReadErr.eofE⟩
    | ReceiveState.reset => ⟨s, chan, 0, some ReadErr.resetE⟩
    | ReceiveState.receiving =>
      if blen = 0 then ⟨s, chan, 0, none⟩
      else
        match s.nextMessage with
        | none => readLoadLoop s blen chan
        | some m =>
          if 0 < m.data.length then
            let n := min blen m.data.length
            ⟨{ s with nextMessage := some ⟨m.flag, m.data.drop n⟩ }, chan, n, none⟩
          else
            let s2 := { processIncomingFlag s m.flag with nextMessage := none }
            match s2.closeErr with
            | some code => ⟨s2, chan, 0, some (ReadErr.stickyE code)⟩
            | none =>
              match s2.receiveState with
              | ReceiveState.dataRead => ⟨s2, chan, 0, some ReadErr.eofE⟩
              | ReceiveState.reset => ⟨s2, chan, 0, some ReadErr.resetE⟩
              | ReceiveState.receiving => readLoadLoop s2 blen chan

/-- Embedding of `stream.CloseRead`: when still receiving and not closed,
send `STOP_SENDING` (recorded by the boolean) and move `receive_state` to
`reset`; always idempotently spawn the control-message reader (not modelled). -/
def streamCloseRead (s : StreamState) : StreamState × Bool :=
  if s.receiveState = ReceiveState.receiving ∧ s.closeErr = none then
    ({ s with receiveState := ReceiveState.reset }, true)
  else (s, false)

/-- Modelled from the spec: `CloseWrite` (not in the source excerpt) sends
`{Flag: FIN}` and moves `send_state` from `sending` to `closed`. -/
def streamCloseWrite (s : StreamState) : StreamState :=
  if s.sendState = SendState.sending then { s with sendState := SendState.closed } else s

/-- Modelled from the spec: stream `Reset` (not in the source excerpt) sends
`{Flag: RESET}` on a best-effort basis and marks both directions reset. -/
def streamResetOp (s : StreamState) : StreamState :=
  { s with receiveState := ReceiveState.reset, sendState := SendState.reset }

/-- Modelled from the spec: `Write` (not in the source excerpt) is rejected
when `send_state ≠ sending` and otherwise sends data; either way it does not
move the state machines. -/
def streamWrite (s : StreamState) (_data : List Nat) : StreamState × Bool :=
  if s.sendState = SendState.sending then (s, true) else (s, false)

/-- One user-visible operation on a stream, with the channel events a `Read`
consumes. -/
inductive StreamOp
  | read (blen : Nat) (chan : List ChanEvent)
  | closeRead
  | closeWrite
  | resetStream
  | write (data : List Nat)

/-- State reached after one stream operation. -/
def streamStep (s : StreamState) : StreamOp → StreamState
  | StreamOp.read blen chan => (streamRead s blen chan).st
  | StreamOp.closeRead => (streamCloseRead s).1
  | StreamOp.closeWrite => streamCloseWrite s
  | StreamOp.resetStream => streamResetOp s
  | StreamOp.write d => (streamWrite s d).1

theorem processIncomingFlag_receive (s : StreamState) (f : Option MsgFlag)
    (h : (processIncomingFlag s f).receiveState = ReceiveState.receiving) :
    s.receiveState = ReceiveState.receiving := by
  cases f with
  | none => simpa [processIncomingFlag] using h
  | some fl =>
    cases fl <;> revert h <;> simp only [processIncomingFlag] <;> split <;> simp_all

theorem processIncomingFlag_send (s : StreamState) (f : Option MsgFlag)
    (h : (processIncomingFlag s f).sendState = SendState.sending) :
    s.sendState = SendState.sending := by
  cases f with
  | none => simpa [processIncomingFlag] using h
  | some fl =>
    cases fl <;> revert h <;> simp only [processIncomingFlag] <;> split <;> simp_all

theorem handleReadMsgError_receive (s : StreamState) (e : ChanEvent)
    (h : (handleReadMsgError s e).1.receiveState = ReceiveState.receiving) :
    s.receiveState = ReceiveState.receiving := by
  cases e <;> revert h <;> simp only [handleReadMsgError] <;>
    (repeat' split) <;> simp_all

theorem handleReadMsgError_send (s : StreamState) (e : ChanEvent) :
    (handleReadMsgError s e).1.sendState = s.sendState := by
  cases e <;> simp only [handleReadMsgError] <;> (repeat' split) <;> simp_all

theorem readLoadLoop_receive (blen : Nat) :
    ∀ (ch : List ChanEvent) (s : StreamState),
      (readLoadLoop s blen ch).st.receiveState = ReceiveState.receiving →
        s.receiveState = ReceiveState.receiving
  | [], s => by simp [readLoadLoop]
  | ChanEvent.eofErr :: rest, s => by
    intro h
    rw [readLoadLoop] at h
    exact handleReadMsgError_receive s ChanEvent.eofErr h
  | ChanEvent.otherErr code :: rest, s => by
    intro h
    rw [readLoadLoop] at h
    exact handleReadMsgError_receive s (ChanEvent.otherErr code) h
  | ChanEvent.msg m :: rest, s => by
    intro h
    rw [readLoadLoop] at h
    by_cases hd : 0 < m.data.length
    · rw [if_pos hd] at h
      simpa using h
    · rw [if_neg hd] at h
      dsimp only at h
      refine processIncomingFlag_receive s m.flag ?_
      revert h
      generalize processIncomingFlag s m.flag = p
      intro h
      cases hc : p.closeErr with
      | some code => rw [hc] at h; simpa using h
      | none =>
        rw [hc] at h
        cases hr : p.receiveState with
        | dataRead => rw [hr] at h; simp at h
        | reset => rw [hr] at h; simp at h
        | receiving => rfl

theorem readLoadLoop_send (blen : Nat) :
    ∀ (ch : List ChanEvent) (s : StreamState),
      (readLoadLoop s blen ch).st.sendState = SendState.sending →
        s.sendState = SendState.sending
  | [], s => by simp [readLoadLoop]
  | ChanEvent.eofErr :: rest, s => by
    intro h
    rw [readLoadLoop] at h
    rw [handleReadMsgError_send s ChanEvent.eofErr] at h
    exact h
  | ChanEvent.otherErr code :: rest, s => by
    intro h
    rw [readLoadLoop] at h
    rw [handleReadMsgError_send s (ChanEvent.otherErr code)] at h
    exact h
  | ChanEvent.msg m :: rest, s => by
    intro h
    rw [readLoadLoop] at h
    by_cases hd : 0 < m.data.length
    · rw [if_pos hd] at h
      simpa using h
    · rw [if_neg hd] at h
      dsimp only at h
      refine processIncomingFlag_send s m.flag ?_
      revert h
      generalize processIncomingFlag s m.flag = p
      intro h
      cases hc : p.closeErr with
      | some code => rw [hc] at h; simpa using h
      | none =>
        rw [hc] at h
        cases hr : p.receiveState with
        | dataRead => rw [hr] at h; simpa using h
        | reset => rw [hr] at h; simpa using h
        | receiving =>
          rw [hr] at h
          dsimp only at h
          have h2 := readLoadLoop_send blen rest
            ({ receiveState := ReceiveState.receiving, sendState := p.sendState,
               closeErr := none, nextMessage := none }) h
          simpa using h2

theorem streamRead_receive (s : StreamState) (blen : Nat) (chan : List ChanEvent)
    (h : (streamRead s blen chan).st.receiveState = ReceiveState.receiving) :
    s.receiveState = ReceiveState.receiving := by
  cases hrs : s.receiveState with
  | receiving => rfl
  | dataRead =>
    unfold streamRead at h
    cases hc : s.closeErr <;> simp [hc, hrs] at h
  | reset =>
    unfold streamRead at h
    cases hc : s.closeErr <;> simp [hc, hrs] at h

theorem streamRead_send (s : StreamState) (blen : Nat) (chan : List ChanEvent)
    (h : (streamRead s blen chan).st.sendState = SendState.sending) :
    s.sendState = SendState.sending := by
  unfold streamRead at h
  cases hc : s.closeErr with
  | some code => rw [hc] at h; simpa using h
  | none =>
    rw [hc] at h
    dsimp only at h
    cases hrs : s.receiveState with
    | dataRead => rw [hrs] at h; simpa using h
    | reset => rw [hrs] at h; simpa using h
    | receiving =>
      rw [hrs] at h
      dsimp only at h
      by_cases hb : blen = 0
      · rw [if_pos hb] at h; simpa using h
      · rw [if_neg hb] at h
        cases hm : s.nextMessage with
        | none =>
          rw [hm] at h
          dsimp only at h
          exact readLoadLoop_send blen chan s h
        | some m =>
          rw [hm] at h
          dsimp only at h
          by_cases hd : 0 < m.data.length
          · rw [if_pos hd] at h; simpa using h
          · rw [if_neg hd] at h
            refine processIncomingFlag_send s m.flag ?_
            revert h
            generalize processIncomingFlag s m.flag = p
            intro h
            cases hpc : p.closeErr with
            | some code => rw [hpc] at h; simpa using h
            | none =>
              rw [hpc] at h
              cases hpr : p.receiveState with
              | dataRead => rw [hpr] at h; simpa using h
              | reset => rw [hpr] at h; simpa using h
              | receiving =>
                rw [hpr] at h
                dsimp only at h
                have h2 := readLoadLoop_send blen chan
                  ({ receiveState := ReceiveState.receiving, sendState := p.sendState,
                     closeErr := none, nextMessage := none }) h
                simpa using h2

theorem streamStep_receive (s : StreamState) (op : StreamOp)
    (h : (streamStep s op).receiveState = ReceiveState.receiving) :
    s.receiveState = ReceiveState.receiving := by
  cases op with
  | read blen chan => exact streamRead_receive s blen chan h
  | closeRead =>
    revert h
    unfold streamStep streamCloseRead
    (repeat' split) <;> simp_all
  | closeWrite =>
    revert h
    unfold streamStep streamCloseWrite
    (repeat' split) <;> simp_all
  | resetStream =>
    revert h
    unfold streamStep streamResetOp
    simp
  | write d =>
    revert h
    unfold streamStep streamWrite
    (repeat' split) <;> simp_all

theorem streamStep_send (s : StreamState) (op : StreamOp)
    (h : (streamStep s op).sendState = SendState.sending) :
    s.sendState = SendState.sending := by
  cases op with
  | read blen chan => exact streamRead_send s blen chan h
  | closeRead =>
    revert h
    unfold streamStep streamCloseRead
    (repeat' split) <;> simp_all
  | closeWrite =>
    revert h
    unfold streamStep streamCloseWrite
    (repeat' split) <;> simp_all
  | resetStream =>
    revert h
    unfold streamStep streamResetOp
    simp
  | write d =>
    revert h
    unfold streamStep streamWrite
    (repeat' split) <;> simp_all

theorem streamFold_receive : ∀ (ops : List StreamOp) (s : StreamState),
    (ops.foldl streamStep s).receiveState = ReceiveState.receiving →
      s.receiveState = ReceiveState.receiving
  | [], _ => fun h => h
  | op :: rest, s => fun h =>
    streamStep_receive s op (streamFold_receive rest (streamStep s op) h)

theorem streamFold_send : ∀ (ops : List StreamOp) (s : StreamState),
    (ops.foldl streamStep s).sendState = SendState.sending →
      s.sendState = SendState.sending
  | [], _ => fun h => h
  | op :: rest, s => fun h =>
    streamStep_send s op (streamFold_send rest (streamStep s op) h)

/-- C1: for every connection (here: every run of `generateNoisePrologue` with
the sha-256 hash selected by the certhash profile, the local fingerprint value
being the interspersed hex of the local certificate's sha-256 digest), the
Noise prologue equals the bytes `libp2p-webrtc-noise:` followed by `first`
followed by `second`, where `first` and `second` are `multihash(sha256, der)`
of the two DTLS certificates, with `first = remote, second = local` for the
inbound role and `first = local, second = remote` for the outbound role. -/
theorem c1_noise_prologue_ordering (hashFn : HashAlgo → List Nat → List Nat)
    (localFpValue : List Char) (localDer remoteDer : List Nat) (inbound : Bool)
    (h : decodeInterspersedHex localFpValue = some (hashFn HashAlgo.sha256 localDer)) :
    generateNoisePrologue hashFn localFpValue remoteDer HashAlgo.sha256 inbound =
      some (prologueTag ++
        (if inbound
          then mhEncode (hashFn HashAlgo.sha256 remoteDer) SHA2_256 ++
               mhEncode (hashFn HashAlgo.sha256 localDer) SHA2_256
          else mhEncode (hashFn HashAlgo.sha256 localDer) SHA2_256 ++
               mhEncode (hashFn HashAlgo.sha256 remoteDer) SHA2_256)) := by
  unfold generateNoisePrologue
  rw [h]

/-- C1 witness at a concrete input. -/
theorem c1_noise_prologue_ordering_witness :
    generateNoisePrologue (fun _ _ => [171]) "ab".toList [7] HashAlgo.sha256 true =
      some (prologueTag ++ (mhEncode [171] SHA2_256 ++ mhEncode [171] SHA2_256)) := by
  have h := c1_noise_prologue_ordering (fun _ _ => [171]) "ab".toList [5] [7] true rfl
  simpa using h

/-- C2: `noiseHandshake` runs the Noise roles inverted relative to connection
directionality: the outbound dial (which passes `inbound = false`) makes the
`SecureInbound` call, and the inbound accept (which passes `inbound = true`)
makes the `SecureOutbound` call. -/
theorem c2_noise_role_inversion (hashFn : HashAlgo → List Nat → List Nat)
    (localFpValue : List Char) (remoteCertDer : List Nat) (hash : HashAlgo) :
    (∀ call, noiseHandshake hashFn localFpValue remoteCertDer hash dialNoiseInbound =
        some call → call.role = SecureRole.secureInbound) ∧
    (∀ call, noiseHandshake hashFn localFpValue remoteCertDer hash acceptNoiseInbound =
        some call → call.role = SecureRole.secureOutbound) := by
  constructor
  · intro call h
    unfold noiseHandshake at h
    cases hp : generateNoisePrologue hashFn localFpValue remoteCertDer hash dialNoiseInbound with
    | none => rw [hp] at h; exact absurd h (by simp)
    | some pro =>
      rw [hp] at h
      have h2 := Option.some.inj h
      rw [← h2]
      simp [dialNoiseInbound]
  · intro call h
    unfold noiseHandshake at h
    cases hp : generateNoisePrologue hashFn localFpValue remoteCertDer hash acceptNoiseInbound with
    | none => rw [hp] at h; exact absurd h (by simp)
    | some pro =>
      rw [hp] at h
      have h2 := Option.some.inj h
      rw [← h2]
      simp [acceptNoiseInbound]

/-- C2 witness at a concrete input. -/
theorem c2_noise_role_inversion_witness :
    NoiseCall.role ⟨SecureRole.secureInbound,
        prologueTag ++ (mhEncode [] SHA2_256 ++ mhEncode [] SHA2_256)⟩ =
      SecureRole.secureInbound ∧
    NoiseCall.role ⟨SecureRole.secureOutbound,
        prologueTag ++ (mhEncode [] SHA2_256 ++ mhEncode [] SHA2_256)⟩ =
      SecureRole.secureOutbound :=
  ⟨(c2_noise_role_inversion (fun _ _ => []) [] [] HashAlgo.sha256).1 _ rfl,
   (c2_noise_role_inversion (fun _ _ => []) [] [] HashAlgo.sha256).2 _ rfl⟩

/-- C3 counterexample: on the exit path where the Noise handshake fails after
the connection object was constructed, the scope's `Done()` is invoked twice
(once by the deferred close of the returned connection, once by `Dial`'s own
error path), not exactly once as the claim states. -/
theorem c3_scope_done_counterexample :
    dialDoneInvocations ⟨true, true, { allOkDialFlow with noiseHandshakeOk := false }⟩ =
      some 2 ∧ (2 : Nat) ≠ 1 := by
  constructor
  · rfl
  · decide

/-- C3 amended: for every `Dial` call that obtained a scope, `Done()` is
invoked exactly once on every exit path — SetPeer failure, every failure
inside `dial` before the connection object exists, and the lifetime of a
successfully returned connection — except the path where `dial` fails at the
Noise handshake after constructing the connection object, on which `Done()`
is invoked exactly twice (the deferred connection close and `Dial`'s error
path; the second invocation is redundant). -/
theorem c3_scope_done_amended (c : DialCall) :
    dialDoneInvocations c =
      if c.openConnectionOk then
        some (if c.setPeerOk ∧ (dialRun c.flow).result = Except.error DialErr.noise
          then 2 else 1)
      else none := by
  unfold dialDoneInvocations
  cases ho : c.openConnectionOk with
  | false => simp
  | true =>
    simp only [Bool.not_true, Bool.false_eq_true, if_false, if_true]
    cases hs : c.setPeerOk with
    | false => simp
    | true =>
      simp only [Bool.not_true, Bool.false_eq_true, if_false, if_true, true_and]
      have hcr := dialRun_connReturnedWithErr c.flow
      cases hr : (dialRun c.flow).result with
      | ok u =>
        rw [hr] at hcr
        simp [hr, connCloseScopeReleases]
      | error e =>
        rw [hr] at hcr
        by_cases hn : e = DialErr.noise
        · subst hn
          have hw : (dialRun c.flow).connReturnedWithErr = true := hcr.mpr rfl
          simp [hr, hw, connCloseScopeReleases]
        · have hw : (dialRun c.flow).connReturnedWithErr = false := by
            cases hwb : (dialRun c.flow).connReturnedWithErr with
            | false => rfl
            | true =>
              exact absurd (Except.error.inj (hcr.mp hwb)) hn
          simp [hr, hw, connCloseScopeReleases, hn]

/-- C4 counterexample: the claim says `{disconnect = 1ns, failed = 0,
keepalive = 0}` is accepted (the failed and keepalive checks are disabled and
no enabled invariant is violated) with the zero checks staying disabled, but
the option rejects it, because the zero fields are first replaced by the
transport's default values (`25s`, `2s`) and `1ns ≤ 2s` then trips the
keepalive check; and a zero disconnect field is replaced by the `5s` default
instead of staying disabled. -/
theorem c4_ice_timeouts_counterexample :
    claimIceAccepts ⟨1, 0, 0⟩ = true ∧
    withPeerConnectionIceTimeouts
        ⟨DefaultDisconnectedTimeout, DefaultFailedTimeout, DefaultKeepaliveTimeout⟩
        ⟨1, 0, 0⟩ =
      Except.error IceErr.keepaliveGeDisconnect ∧
    withPeerConnectionIceTimeouts
        ⟨DefaultDisconnectedTimeout, DefaultFailedTimeout, DefaultKeepaliveTimeout⟩
        ⟨0, DefaultFailedTimeout, DefaultKeepaliveTimeout⟩ =
      Except.ok ⟨DefaultDisconnectedTimeout, DefaultFailedTimeout, DefaultKeepaliveTimeout⟩ := by
  refine ⟨rfl, ?_, ?_⟩ <;>
    simp [withPeerConnectionIceTimeouts, DefaultDisconnectedTimeout, DefaultFailedTimeout,
      DefaultKeepaliveTimeout]

set_option maxHeartbeats 2000000 in
/-- C4 amended: `WithPeerConnectionIceTimeouts` first replaces each zero field
of the argument with the transport's current (default) value for that field —
a zero check does not stay disabled — and accepts the value iff, after this
substitution, `failed ≥ disconnect` and `disconnect > keepalive` hold among
the checks that are then nonzero; on acceptance the transport's timeouts
become the substituted values. -/
theorem c4_ice_timeouts_amended (cur inp : IceTimeouts) :
    (withPeerConnectionIceTimeouts cur inp).toOption =
      if iceInvariantsOkB (substitutedTimeouts cur inp) then
        some (substitutedTimeouts cur inp)
      else none := by
  obtain ⟨d, f, k⟩ := inp
  obtain ⟨cd, cf, ck⟩ := cur
  simp only [withPeerConnectionIceTimeouts, substitutedTimeouts, iceInvariantsOkB]
  by_cases hd : d = 0 <;> by_cases hf : f = 0 <;> by_cases hk : k = 0 <;>
    by_cases hcd : cd = 0 <;> by_cases hcf : cf = 0 <;> by_cases hck : ck = 0 <;>
    simp only [hd, hf, hk, if_true, if_false, ite_true, ite_false] <;>
    split_ifs <;> simp_all [Except.toOption] <;> omega

theorem decodeRemote_of_encode (digest : List Nat) (hd : ∀ x ∈ digest, x < 256) :
    DecodeRemoteFingerprint (multibaseEncodeBase64url (mhEncode digest SHA2_256)) =
      some ⟨SHA2_256, digest.length, digest⟩ := by
  have hbytes : ∀ x ∈ mhEncode digest SHA2_256, x < 256 := by
    intro x hx
    unfold mhEncode at hx
    rcases List.mem_append.mp hx with hx1 | hx2
    · rcases List.mem_append.mp hx1 with ha | hb
      · exact uvarintEncode_lt_256 _ x ha
      · exact uvarintEncode_lt_256 _ x hb
    · exact hd x hx2
  unfold DecodeRemoteFingerprint multibaseEncodeBase64url
  simp only [multibaseDecode, if_pos]
  rw [b64urlDecode_b64urlEncode _ hbytes]
  exact mhDecode_mhEncode digest SHA2_256

/-- C5 counterexample: for a fingerprint whose hash algorithm is `sha-384`,
the multihash code matching the algorithm is `0x20`, but
`EncodeDTLSFingerprint` wraps the digest with the hardcoded sha2-256 code
`0x12`: decoding its own output yields code `0x12 ≠ 0x20`, so the produced
multihash code does not match the fingerprint's hash algorithm. -/
theorem c5_encode_fingerprint_counterexample :
    matchingMultihashCode ("sha-384".toList) = some 0x20 ∧
    EncodeDTLSFingerprint ⟨"sha-384".toList, "aa:bb".toList⟩ =
      some (multibaseEncodeBase64url (mhEncode [0xaa, 0xbb] SHA2_256)) ∧
    (DecodeRemoteFingerprint (multibaseEncodeBase64url (mhEncode [0xaa, 0xbb] SHA2_256))).map
        DecodedMultihash.code = some SHA2_256 ∧
    SHA2_256 ≠ 0x20 := by
  refine ⟨by decide, rfl, ?_, by decide⟩
  rw [decodeRemote_of_encode [0xaa, 0xbb] (by decide)]
  rfl

/-- C5 amended: for every DTLS fingerprint in the colon-interspersed hex form,
`EncodeDTLSFingerprint` parses that form into raw digest bytes, wraps the
digest in a multihash whose code is always sha2-256 (`0x12`) regardless of
the fingerprint's hash algorithm, and multibase-encodes the result in
base64url. -/
theorem c5_encode_fingerprint_amended (fp : DTLSFingerprint) (digest : List Nat)
    (h : decodeInterspersedHex fp.Value = some digest) :
    EncodeDTLSFingerprint fp = some (multibaseEncodeBase64url (mhEncode digest SHA2_256)) := by
  unfold EncodeDTLSFingerprint
  rw [h]

/-- C5 amended witness at a concrete input. -/
theorem c5_encode_fingerprint_amended_witness :
    EncodeDTLSFingerprint ⟨"sha-256".toList, "00".toList⟩ =
      some (multibaseEncodeBase64url (mhEncode [0] SHA2_256)) :=
  c5_encode_fingerprint_amended ⟨"sha-256".toList, "00".toList⟩ [0] rfl

/-- C6: for every DTLS fingerprint whose value parses as interspersed hex,
decoding the certhash produced by `EncodeDTLSFingerprint` — certhash
component extraction, multibase decode, multihash decode — yields exactly the
digest bytes of the fingerprint. -/
theorem c6_fingerprint_roundtrip (fp : DTLSFingerprint) (digest : List Nat)
    (h : decodeInterspersedHex fp.Value = some digest) :
    ∃ s, EncodeDTLSFingerprint fp = some s ∧
      DecodeRemoteFingerprint s = some ⟨SHA2_256, digest.length, digest⟩ := by
  refine ⟨multibaseEncodeBase64url (mhEncode digest SHA2_256), ?_, ?_⟩
  · unfold EncodeDTLSFingerprint
    rw [h]
  · exact decodeRemote_of_encode digest (decodeInterspersedHex_lt_256 fp.Value digest h)

/-- C6 witness at a concrete input. -/
theorem c6_fingerprint_roundtrip_witness :
    ∃ s, EncodeDTLSFingerprint ⟨"sha-256".toList, "aa:bb".toList⟩ = some s ∧
      DecodeRemoteFingerprint s = some ⟨SHA2_256, 2, [0xaa, 0xbb]⟩ := by
  have h := c6_fingerprint_roundtrip ⟨"sha-256".toList, "aa:bb".toList⟩ [0xaa, 0xbb] rfl
  simpa using h

/-- C7: when the underlying channel `ReadMsg` returns `io.EOF` inside
`stream.Read`: if `receive_state` is already `data_read` the read returns
`EOF`; otherwise — a channel closed without a `FIN` — `receive_state` moves to
`reset` and the read returns `Reset`, never `EOF`.  Stated both on the error
branch itself (for an arbitrary state at mutex re-acquisition) and through a
sequential `streamRead` run that hits the EOF. -/
theorem c7_eof_gives_reset :
    (∀ s : StreamState,
      handleReadMsgError s ChanEvent.eofErr =
        if s.receiveState = ReceiveState.dataRead then (s, ReadErr.eofE)
        else ({ s with receiveState := ReceiveState.reset }, ReadErr.resetE)) ∧
    ReadErr.resetE ≠ ReadErr.eofE ∧
    (∀ (s : StreamState) (blen : Nat) (rest : List ChanEvent),
      s.closeErr = none → s.receiveState = ReceiveState.receiving →
      s.nextMessage = none → blen ≠ 0 →
      streamRead s blen (ChanEvent.eofErr :: rest) =
        ⟨{ s with receiveState := ReceiveState.reset }, rest, 0, some ReadErr.resetE⟩) := by
  refine ⟨fun s => rfl, by decide, ?_⟩
  intro s blen rest hc hr hn hb
  unfold streamRead
  rw [hc, hr, if_neg hb, hn, readLoadLoop]
  simp [handleReadMsgError, hr, hc, hn]

/-- C7 witness at a concrete input. -/
theorem c7_eof_gives_reset_witness :
    streamRead ⟨ReceiveState.receiving, SendState.sending, none, none⟩ 5 [ChanEvent.eofErr] =
      ⟨⟨ReceiveState.reset, SendState.sending, none, none⟩, [], 0, some ReadErr.resetE⟩ :=
  c7_eof_gives_reset.2.2 ⟨ReceiveState.receiving, SendState.sending, none, none⟩ 5 []
    rfl rfl rfl (by decide)

/-- C8: over every sequence of stream operations (reads with their flag
processing, CloseRead, writes and closes), `receive_state` is monotone
through `receiving → {data_read, reset}` and `send_state` through
`sending → {closed, reset}`: if the state after the sequence is `receiving`
(resp. `sending`), it already was at the start — once left, never
re-entered. -/
theorem c8_state_monotone (ops : List StreamOp) (s : StreamState) :
    ((ops.foldl streamStep s).receiveState = ReceiveState.receiving →
      s.receiveState = ReceiveState.receiving) ∧
    ((ops.foldl streamStep s).sendState = SendState.sending →
      s.sendState = SendState.sending) :=
  ⟨streamFold_receive ops s, streamFold_send ops s⟩

/-- C8 witness at a concrete input. -/
theorem c8_state_monotone_witness :
    (⟨ReceiveState.receiving, SendState.sending, none, none⟩ : StreamState).receiveState =
      ReceiveState.receiving ∧
    (⟨ReceiveState.receiving, SendState.sending, none, none⟩ : StreamState).sendState =
      SendState.sending :=
  ⟨(c8_state_monotone [StreamOp.write []]
      ⟨ReceiveState.receiving, SendState.sending, none, none⟩).1 rfl,
   (c8_state_monotone [StreamOp.write []]
      ⟨ReceiveState.receiving, SendState.sending, none, none⟩).2 rfl⟩

/-- C9: for every dial whose remote certhash carries a multihash code outside
the supported-hash table, `dial` returns the (non-nil) unsupported-hash error
and no peer connection is created before returning. -/
theorem c9_unsupported_hash (f : DialFlow) (hdec : f.decodeFpOk = true)
    (hun : getSupportedSDPHash f.certhashCode = none) :
    (dialRun f).result = Except.error DialErr.unsupportedHash ∧
    (dialRun f).pcCreated = false := by
  unfold dialRun
  rw [hdec, hun]
  simp

/-- C9 witness at the concrete multihash code `0xFF`. -/
theorem c9_unsupported_hash_witness :
    (dialRun { allOkDialFlow with certhashCode := 0xFF }).result =
        Except.error DialErr.unsupportedHash ∧
    (dialRun { allOkDialFlow with certhashCode := 0xFF }).pcCreated = false :=
  c9_unsupported_hash { allOkDialFlow with certhashCode := 0xFF } rfl rfl

/-- C10: for every non-nil pre-shared key, `New` returns an error and
constructs no transport, whatever the other construction steps and options
would do: private networks are rejected at construction. -/
theorem c10_psk_rejected (e : NewEnv)
    (opts : List (TransportConfig → Except IceErr TransportConfig))
    (h : e.pskPresent = true) :
    transportNew e opts = Except.error NewErr.pskNotSupported := by
  unfold transportNew
  rw [h]
  simp

/-- C10 witness at a concrete input. -/
theorem c10_psk_rejected_witness :
    transportNew ⟨true, true, true, true, true⟩ [] = Except.error NewErr.pskNotSupported :=
  c10_psk_rejected ⟨true, true, true, true, true⟩ [] rfl
